import Mathlib

/-
Verification development for the serde_dbus codec.

Shallow embedding of the core codec:
  - src/align.rs          : alignNat (wrapping usize arithmetic, modulus USZ)
  - src/error.rs          : Error
  - src/message.rs        : Message
  - src/primitives.rs     : little-endian encodings, the Signature primitive
  - src/ser/message_builder.rs : MessageComponent, MessageBuilder
  - src/ser/internal.rs   : PendingMessage and the composite sub-serializers
  - src/de/internal.rs, src/de.rs : DeState cursors and the decode paths

Bytes are modelled as Nat values below 256 in Lists; usize as Nat with an
explicit modulus USZ = 2 to the power 64 where the source wraps.
Rust panics are modelled as Option.none where a code path can reach them.
-/

namespace SerdeDbus

/-- usize modulus: the source does wrapping arithmetic on 64-bit usize. -/
def USZ : Nat := 2 ^ 64

/-- src/align.rs align: mask = Wrapping(alignment) - Wrapping(1);
new = old + ((-old) AND mask), all in wrapping usize arithmetic. -/
def alignNat (ix alignment : Nat) : Nat :=
  (ix % USZ + ((USZ - ix % USZ) % USZ &&& (alignment + (USZ - 1)) % USZ)) % USZ

/-- src/error.rs Error, restricted to the constructors the embedded code paths
produce. StringConversion drops the Utf8Error payload of the source. -/
inductive Error where
  | Serializing (msg : String)
  | Deserializing (msg : String)
  | MismatchSignature (expected got : List Nat)
  | StringConversion
  | LeftoverData (n : Nat)
  | LeftoverSignature (n : Nat)
  | UnrecognizedSignatureCharacter (b : Nat)
  | UnsupportedSignatureCharacter (b : Nat)
  | SignatureError (expected got : Nat)
  | SignatureErrorIx (expected : List Nat) (ix : Nat)
  | SignatureExhausted
  | IndexOutOfBounds (ix : Nat)
  | InvalidBoolValue (v : Nat)
  | CharTryFromError
  | MismatchedSignatureBracketing (ix : Nat)
  | ArrayElementOverrun (ix endIx : Nat)
  deriving DecidableEq

/-- src/message.rs Message: a data buffer paired with a signature. -/
structure Message where
  data : List Nat
  signature : List Nat
  deriving DecidableEq

/-- Little-endian value of a byte list (ByteOrder read_u16, read_u32, read_u64). -/
def leNat (bs : List Nat) : Nat := bs.foldr (fun b acc => b + 256 * acc) 0

/-- Little-endian bytes of a u32 (u32 to_le_bytes); values at least 2 to the
power 32 are first truncated, as the `as u32` cast does. -/
def u32le (v : Nat) : List Nat :=
  [v % 256, v / 2 ^ 8 % 256, v / 2 ^ 16 % 256, v / 2 ^ 24 % 256]

/-- Rust slice indexing out[a..b]; none models the panic on an out-of-range
or inverted range. -/
def sliceRange (out : List Nat) (a b : Nat) : Option (List Nat) :=
  if a ≤ b ∧ b ≤ out.length then some ((out.drop a).take (b - a)) else none

/-- Rust copy_from_slice: none models the panic when lengths differ. -/
def copyFromSlice (dst src : List Nat) : Option (List Nat) :=
  if dst.length = src.length then some src else none

/-- out[a..b].copy_from_slice(src): the written-back buffer, none on panic. -/
def writeRange (out : List Nat) (a b : Nat) (src : List Nat) : Option (List Nat) := do
  let dst ← sliceRange out a b
  let w ← copyFromSlice dst src
  some (out.take a ++ w ++ out.drop b)

/-- src/primitives.rs impl DbusPrimitive for Signature: size() is
byte length + 2 (length byte and trailing NUL). -/
def signatureSize (sigBytes : List Nat) : Nat := sigBytes.length + 2

/-- src/primitives.rs impl DbusPrimitive for Signature: serialize writes
the four little-endian bytes of the length as u32 into out[0..1], then the
bytes into out[1..1+len], then a NUL. none models a panic. -/
def signatureSerializeRs (sigBytes out : List Nat) : Option (List Nat) := do
  let out ← writeRange out 0 1 (u32le sigBytes.length)
  let out ← writeRange out 1 (1 + sigBytes.length) sigBytes
  writeRange out (1 + sigBytes.length) (1 + sigBytes.length + 1) [0]

/-- src/ser/message_builder.rs MessageComponent. -/
inductive MessageComponent where
  | alignmentSlice (alignment : Nat) (data : List Nat)
  | lengthBegin (token : Nat)
  | lengthEnd (token : Nat)
  deriving DecidableEq

/-- src/ser/message_builder.rs MessageBuilder. The source keeps a Vec of
components whose last element (the top) is, by invariant, always an
alignment slice; here that invariant is carried by the representation:
the top slice is the pair topAlign, topData and rest holds the components
below it, most recent first. -/
structure MessageBuilder where
  rest : List MessageComponent
  topAlign : Nat
  topData : List Nat
  deriving DecidableEq

/-- src/ser/message_builder.rs align_vec: resize the vector to the aligned
length padding with zeros. -/
def alignVec (v : List Nat) (alignment : Nat) : List Nat :=
  v ++ List.replicate (alignNat v.length alignment - v.length) 0

/-- MessageBuilder::new: a single empty alignment slice of alignment 1. -/
def MessageBuilder.new : MessageBuilder := ⟨[], 1, []⟩

/-- MessageBuilder::align. -/
def MessageBuilder.align (b : MessageBuilder) (alignment : Nat) : MessageBuilder :=
  if b.topData.isEmpty then { b with topAlign := max b.topAlign alignment }
  else if alignment ≤ b.topAlign then { b with topData := alignVec b.topData alignment }
  else ⟨.alignmentSlice b.topAlign b.topData :: b.rest, alignment, []⟩

/-- MessageBuilder::prepare_write(n) followed by the caller filling all n
bytes; every call site of the source fills the returned slice completely. -/
def MessageBuilder.pushBytes (b : MessageBuilder) (bytes : List Nat) : MessageBuilder :=
  { b with topData := b.topData ++ bytes }

/-- Push a non-slice component: the current top is frozen into rest and a
fresh empty top slice of the given alignment starts. -/
def MessageBuilder.pushComponent (b : MessageBuilder) (c : MessageComponent)
    (newAlign : Nat) : MessageBuilder :=
  ⟨c :: .alignmentSlice b.topAlign b.topData :: b.rest, newAlign, []⟩

/-- MessageBuilder::start_length. The source mints tokens from a global
atomic counter; the counter is threaded explicitly as tok. Returns the
builder, the minted token and the next counter value. -/
def MessageBuilder.startLength (b : MessageBuilder) (tok : Nat) :
    MessageBuilder × Nat × Nat :=
  let b := b.align 4
  (b.pushComponent (.lengthBegin tok) 4, tok, tok + 1)

/-- MessageBuilder::finish_length. -/
def MessageBuilder.finishLength (b : MessageBuilder) (token : Nat) : MessageBuilder :=
  b.pushComponent (.lengthEnd token) 1

/-- The component stream in source order (bottom of the Vec first). -/
def MessageBuilder.components (b : MessageBuilder) : List MessageComponent :=
  b.rest.reverse ++ [.alignmentSlice b.topAlign b.topData]

/-- One step of MessageBuilder::append_data. -/
def MessageBuilder.appendOne (b : MessageBuilder) : MessageComponent → MessageBuilder
  | .alignmentSlice a d => (b.align a).pushBytes d
  | c => b.pushComponent c 1

/-- MessageBuilder::append_data: alignment slices of the other builder become
align plus write calls; length markers are pushed verbatim, each followed by
a fresh alignment-1 slice. -/
def MessageBuilder.appendData (b other : MessageBuilder) : MessageBuilder :=
  other.components.foldl MessageBuilder.appendOne b

/-- BTreeMap get on the token map of complete(). -/
def assocLookup : List (Nat × Nat × Nat) → Nat → Option (Nat × Nat)
  | [], _ => none
  | (k, f, s) :: rest, tok => if k = tok then some (f, s) else assocLookup rest tok

/-- BTreeMap insert (replacing an existing binding). -/
def assocInsert : List (Nat × Nat × Nat) → Nat → Nat × Nat → List (Nat × Nat × Nat)
  | [], tok, v => [(tok, v.1, v.2)]
  | (k, f, s) :: rest, tok, v =>
    if k = tok then (tok, v.1, v.2) :: rest else (k, f, s) :: assocInsert rest tok v

/-- get_mut on the token map updating the start offset, a no-op when the
token is absent. -/
def assocUpdateBegin : List (Nat × Nat × Nat) → Nat → Nat → List (Nat × Nat × Nat)
  | [], _, _ => []
  | (k, f, s) :: rest, tok, b =>
    if k = tok then (k, f, b) :: rest else (k, f, s) :: assocUpdateBegin rest tok b

/-- BTreeMap remove. -/
def assocErase : List (Nat × Nat × Nat) → Nat → List (Nat × Nat × Nat)
  | [], _ => []
  | (k, f, s) :: rest, tok =>
    if k = tok then rest else (k, f, s) :: assocErase rest tok

/-- Backfill four bytes at fillIx (output[fill_ix..fill_ix+4].copy_from_slice). -/
def listOverwrite (out : List Nat) (fillIx : Nat) (bytes : List Nat) : List Nat :=
  out.take fillIx ++ bytes ++ out.drop (fillIx + bytes.length)

/-- The loop of MessageBuilder::complete over the component stream, carrying
the output, the token map and the recently started length. none models the
panic on a length end without matching begin. -/
def completeLoop : List MessageComponent → List Nat → List (Nat × Nat × Nat) →
    Option Nat → Option (List Nat)
  | [], out, _, _ => some out
  | .alignmentSlice a d :: restC, out, lengths, recent =>
    let out := alignVec out a
    let lengths := match recent with
      | some tok => assocUpdateBegin lengths tok out.length
      | none => lengths
    completeLoop restC (out ++ d) lengths none
  | .lengthBegin tok :: restC, out, lengths, _ =>
    let lengths := assocInsert lengths tok (out.length, out.length + 4)
    completeLoop restC (out ++ [0, 0, 0, 0]) lengths (some tok)
  | .lengthEnd tok :: restC, out, lengths, _ =>
    match assocLookup lengths tok with
    | none => none
    | some (fillIx, beginIx) =>
      let length := out.length - beginIx
      let out := listOverwrite out fillIx (u32le length)
      completeLoop restC out (assocErase lengths tok) none

/-- MessageBuilder::complete. -/
def MessageBuilder.complete (b : MessageBuilder) : Option (List Nat) :=
  completeLoop b.components [] [] none

/-- src/ser/message_builder.rs PendingMessage: a builder plus the signature
accumulated so far. Also stands for the ReadySerializer and DoneSerializer
wrappers of src/ser/internal.rs, which hold exactly this state. -/
structure PendingMessage where
  builder : MessageBuilder
  signature : List Nat
  deriving DecidableEq

/-- PendingMessage::new (also ReadySerializer::new). -/
def PendingMessage.new : PendingMessage := ⟨MessageBuilder.new, []⟩

/-- DoneSerializer::complete: run the builder and pair with the signature. -/
def completeDone (m : PendingMessage) : Option Message :=
  (m.builder.complete).map (fun d => ⟨d, m.signature⟩)

/-- ReadySerializer::serialize_primitive for the str primitive
(src/primitives.rs impl DbusPrimitive for str): align 4, write u32 length,
bytes, NUL; push the signature code 115 (byte s). -/
def serializeStrPrim (m : PendingMessage) (s : List Nat) : PendingMessage :=
  let b := m.builder.align 4
  let b := b.pushBytes (u32le s.length ++ s ++ [0])
  ⟨b, m.signature ++ [115]⟩

/-- ReadyStructSerializer::new (start_struct): align 8, push 40 (byte left
parenthesis) to the signature. -/
def startStruct (m : PendingMessage) : PendingMessage :=
  ⟨m.builder.align 8, m.signature ++ [40]⟩

/-- ReadyStructSerializer::new_kv_pair (start_kv_pair): align 8, push 123
(byte left brace). -/
def startKvPair (m : PendingMessage) : PendingMessage :=
  ⟨m.builder.align 8, m.signature ++ [123]⟩

/-- ReadyStructSerializer::finish_struct: push 41 (byte right parenthesis). -/
def finishStruct (m : PendingMessage) : PendingMessage :=
  { m with signature := m.signature ++ [41] }

/-- ReadyStructSerializer::finish_kv_pair: push 125 (byte right brace). -/
def finishKvPair (m : PendingMessage) : PendingMessage :=
  { m with signature := m.signature ++ [125] }

/-- src/ser.rs serialize_unit: an empty struct. -/
def serializeUnit (m : PendingMessage) : PendingMessage :=
  finishStruct (startStruct m)

/-- src/ser.rs serialize_none: delegates to serialize_unit. -/
def serializeNone (m : PendingMessage) : PendingMessage := serializeUnit m

/-- src/ser.rs serialize_unit_struct: delegates to serialize_unit. -/
def serializeUnitStruct (m : PendingMessage) : PendingMessage := serializeUnit m

/-- src/ser/internal.rs ReadyArraySerializer: the enclosing message, the
contents accumulated for the array body, and the declared element signature. -/
structure ReadyArraySer where
  prev : PendingMessage
  contents : PendingMessage
  itemSig : List Nat
  deriving DecidableEq

/-- src/ser/internal.rs PendingArraySerializer. -/
structure PendingArraySer where
  prev : PendingMessage
  itemSig : List Nat
  deriving DecidableEq

/-- ReadySerializer::start_array. -/
def startArray (m : PendingMessage) (itemSig : List Nat) : ReadyArraySer :=
  ⟨m, PendingMessage.new, itemSig⟩

/-- ReadyArraySerializer::start_item: hand the contents to a child
serializer. -/
def ReadyArraySer.startItem (s : ReadyArraySer) : PendingArraySer × PendingMessage :=
  (⟨s.prev, s.itemSig⟩, s.contents)

/-- ReadyArraySerializer::finish_array: push 97 (byte a) and the element
signature, align 4, start a length, splice the contents, finish the length.
tok threads the global token counter. -/
def finishArray (s : ReadyArraySer) (tok : Nat) : PendingMessage × Nat :=
  let sig := s.prev.signature ++ [97] ++ s.itemSig
  let b := s.prev.builder.align 4
  let (b, token, tok) := b.startLength tok
  let b := b.appendData s.contents.builder
  let b := b.finishLength token
  (⟨b, sig⟩, tok)

/-- PendingArraySerializer::finish_item: the signature the item produced is
swapped out and compared with the declared element signature; a mismatch is
an error carrying the declared signature first and the produced one second. -/
def finishItemArray (p : PendingArraySer) (item : PendingMessage) :
    Except Error ReadyArraySer :=
  let sig := item.signature
  let children : PendingMessage := { item with signature := [] }
  if p.itemSig ≠ sig then .error (.MismatchSignature p.itemSig sig)
  else .ok ⟨p.prev, children, p.itemSig⟩

/-- ReadySerializer::start_dict: an array with element signature 123 115 118
125 (the bytes of left brace, s, v, right brace). The dict serializer
wrappers of the source hold exactly a ReadyArraySerializer. -/
def startDict (m : PendingMessage) : ReadyArraySer :=
  startArray m [123, 115, 118, 125]

/-- ReadyDictSerializer::finish_dict. -/
def finishDict (s : ReadyArraySer) (tok : Nat) : PendingMessage × Nat :=
  finishArray s tok

/-- PendingDictSerializer::cancel_item. -/
def cancelItem (s : ReadyArraySer) : ReadyArraySer := s

/-- VariantSerializer::finish_variant: one byte of signature length (as u8),
the signature bytes, a NUL, then the value bytes spliced in with
append_data; the outer signature gains 118 (byte v). -/
def finishVariant (m : PendingMessage) (value : PendingMessage) : PendingMessage :=
  let b := m.builder.pushBytes [value.signature.length % 256]
  let b := b.pushBytes value.signature
  let b := b.pushBytes [0]
  let b := b.appendData value.builder
  ⟨b, m.signature ++ [118]⟩

/-- PendingDictSerializer::finish_item: start an item, open a key-value
pair, write the key string, wrap the value in a variant, close the pair and
finish the array item. -/
def finishDictItem (s : ReadyArraySer) (name : List Nat) (value : PendingMessage) :
    Except Error ReadyArraySer :=
  let (pending, kv) := s.startItem
  let kv := startKvPair kv
  let kv := serializeStrPrim kv name
  let kv := finishVariant kv value
  let kv := finishKvPair kv
  finishItemArray pending kv

/-- PendingDictSerializer::finish_optional_item: a value whose produced
signature is literally 40 41 (the bytes of an empty struct) is dropped. -/
def finishOptionalItem (s : ReadyArraySer) (name : List Nat)
    (value : PendingMessage) : Except Error ReadyArraySer :=
  if value.signature = [40, 41] then .ok (cancelItem s)
  else finishDictItem s name value

/-- serialize of an empty dict (a map or Dict-style struct with zero emitted
entries): start_dict then finish_dict on a fresh serializer, then complete. -/
def serializeEmptyDict : Option Message :=
  let (pm, _) := finishDict (startDict PendingMessage.new) 0
  completeDone pm

/-- serialize of an empty array declared with element signature 100 (byte d,
alignment 8), through the internal array serializer: start_array then
finish_array with zero items, then complete. -/
def serializeEmptyArrayD : Option Message :=
  let (pm, _) := finishArray (startArray PendingMessage.new [100]) 0
  completeDone pm

/-- src/de/internal.rs decoder state: the shared DataBuffer (data, dataIx)
together with the per-decoder signature cursor (sig, sigIx). Child decoders
of the source borrow the same DataBuffer; here a child is built from the
parent fields and its final dataIx is threaded back explicitly. -/
structure DeState where
  data : List Nat
  dataIx : Nat
  sig : List Nat
  sigIx : Nat
  deriving DecidableEq

/-- Deserializer::validate_ix: the index just moved past a read must not
exceed the buffer length. -/
def validateIx (s : DeState) : Except Error DeState :=
  if s.dataIx > s.data.length then .error (.IndexOutOfBounds s.dataIx) else .ok s

/-- Deserializer::align_reader. -/
def alignReader (s : DeState) (alignment : Nat) : Except Error DeState :=
  validateIx { s with dataIx := alignNat s.dataIx alignment }

/-- Deserializer::read: advance the data cursor by len, validate, and return
the bytes passed over. -/
def readBytes (s : DeState) (len : Nat) : Except Error (List Nat × DeState) := do
  let oldIx := s.dataIx
  let s ← validateIx { s with dataIx := oldIx + len }
  .ok ((s.data.drop oldIx).take len, s)

/-- Deserializer::expect_signature_byte. -/
def expectSignatureByte (s : DeState) (expected : Nat) : Except Error DeState :=
  if h : s.sigIx < s.sig.length then
    let got := s.sig.get ⟨s.sigIx, h⟩
    if got ≠ expected then .error (.SignatureError expected got)
    else .ok { s with sigIx := s.sigIx + 1 }
  else .error .SignatureExhausted

/-- Deserializer::probe_signature_bytes: match and consume the expected
signature bytes, or leave the cursor alone. -/
def probeSignatureBytes (s : DeState) (expected : List Nat) : Bool × DeState :=
  if s.sigIx + expected.length > s.sig.length then (false, s)
  else if (s.sig.drop s.sigIx).take expected.length = expected then
    (true, { s with sigIx := s.sigIx + expected.length })
  else (false, s)

/-- The scan of Deserializer::grab_single_sig: walk the signature bytes
from the cursor tracking bracket nesting; a 97 (byte a) never ends a type;
return the absolute index of the last byte of one complete single type. The
source iterates i over sig_ix..sig.len(); here the walked suffix is passed
as a list so that c is sig[i] at each step, and running out of bytes with
the type still open is the bracketing error. -/
def grabLoop (start : Nat) : List Nat → Nat → Int → Except Error Nat
  | [], _, _ => .error (.MismatchedSignatureBracketing start)
  | c :: rest, i, nesting =>
    let nesting' : Int :=
      if c = 40 ∨ c = 91 ∨ c = 123 then nesting + 1
      else if c = 41 ∨ c = 93 ∨ c = 125 then nesting - 1
      else nesting
    if c = 97 then grabLoop start rest (i + 1) nesting'
    else if nesting' = 0 then .ok i
    else grabLoop start rest (i + 1) nesting'

/-- Deserializer::grab_single_sig: the slice covering one complete type from
the signature cursor, advancing the cursor past it. -/
def grabSingleSig (s : DeState) : Except Error (List Nat × DeState) :=
  match grabLoop s.sigIx (s.sig.drop s.sigIx) s.sigIx 0 with
  | .error e => .error e
  | .ok i => .ok ((s.sig.drop s.sigIx).take (i + 1 - s.sigIx), { s with sigIx := i + 1 })

/-- Deserializer::possible_variant: when the next signature byte is 118
(byte v), read a u8 signature length, that many signature bytes and a NUL
from the data stream, and continue under the embedded signature. -/
def possibleVariant (s : DeState) : Except Error DeState := do
  let (isVar, s) := probeSignatureBytes s [118]
  if isVar then
    let (lenB, s) ← readBytes s 1
    let sigLen := lenB.headD 0
    let (sigB, s) ← readBytes s (sigLen + 1)
    .ok ⟨s.data, s.dataIx, sigB.take sigLen, 0⟩
  else
    .ok s

/-- src/de/internal.rs sig_alignment. -/
def sigAlignment (itemSig : Nat) : Except Error Nat :=
  if itemSig = 121 then .ok 1        -- y BYTE
  else if itemSig = 98 then .ok 4    -- b BOOLEAN
  else if itemSig = 110 then .ok 2   -- n INT16
  else if itemSig = 113 then .ok 2   -- q UINT16
  else if itemSig = 105 then .ok 4   -- i INT32
  else if itemSig = 117 then .ok 4   -- u UINT32
  else if itemSig = 120 then .ok 8   -- x INT64
  else if itemSig = 116 then .ok 8   -- t UINT64
  else if itemSig = 100 then .ok 8   -- d DOUBLE
  else if itemSig = 115 then .ok 4   -- s STRING
  else if itemSig = 111 then .ok 4   -- o OBJECT_PATH
  else if itemSig = 103 then .ok 1   -- g SIGNATURE
  else if itemSig = 97 then .ok 4    -- a ARRAY
  else if itemSig = 40 then .ok 8    -- ( STRUCT
  else if itemSig = 118 then .ok 1   -- v VARIANT
  else if itemSig = 123 then .ok 8   -- left brace DICT_ENTRY
  else if itemSig = 104 then .ok 4   -- h UNIX_FD
  else .error (.UnrecognizedSignatureCharacter itemSig)

/-- src/de/internal.rs ArrayDeserializer state. -/
structure ArrayDeState where
  data : List Nat
  dataIx : Nat
  endIx : Nat
  itemSig : List Nat
  deriving DecidableEq

/-- src/de.rs ArrayDeserializer::new followed by
Deserializer::array_deserializer: expect 97 (byte a), align the data cursor
to 4, read the u32 length, take the element signature, align the data
cursor to the element alignment, and fix the end index. -/
def arrayDeserializerNew (s : DeState) : Except Error ArrayDeState := do
  let s ← expectSignatureByte s 97
  let s ← alignReader s 4
  let (lenB, s) ← readBytes s 4
  let len := leNat lenB
  let (itemSig, s) ← grabSingleSig s
  let a ← sigAlignment (itemSig.headD 0)
  let s ← alignReader s a
  .ok ⟨s.data, s.dataIx, s.dataIx + len, itemSig⟩

/-- Deserializer::read_align_signature_value: expect the signature byte,
align the data cursor by the alignment argument, read n bytes. -/
def readAlignSigValue (s : DeState) (n sigByte alignment : Nat) :
    Except Error (List Nat × DeState) := do
  let s ← expectSignatureByte s sigByte
  let s ← alignReader s alignment
  readBytes s n

/-- src/de.rs deserialize_bool: signature byte 98, alignment 4, u32 read;
values above 1 are InvalidBoolValue. -/
def deserializeBool (s : DeState) : Except Error (Bool × DeState) := do
  let s ← possibleVariant s
  let (bs, s) ← readAlignSigValue s 4 98 4
  let i := leNat bs
  if i > 1 then .error (.InvalidBoolValue i) else .ok (i == 1, s)

/-- src/de.rs deserialize_u8: signature byte 121, alignment 1. -/
def deserializeU8 (s : DeState) : Except Error (Nat × DeState) := do
  let s ← possibleVariant s
  let (bs, s) ← readAlignSigValue s 1 121 1
  .ok (bs.headD 0, s)

/-- src/de.rs deserialize_char: read_align_signature_value with the u32
signature byte 117 but alignment argument 2, as in the source; the u32 is
converted to a char, failing on surrogates and values above 1114111. The
char is returned as its scalar value. -/
def deserializeChar (s : DeState) : Except Error (Nat × DeState) := do
  let s ← possibleVariant s
  let (bs, s) ← readAlignSigValue s 4 117 2
  let i := leNat bs
  if i < 55296 ∨ (57344 ≤ i ∧ i ≤ 1114111) then .ok (i, s)
  else .error .CharTryFromError

/-- src/de.rs deserialize_f32: read_align_signature_value with the f64
signature byte 100, 8 bytes, but alignment argument 4, as in the source.
The 64 bits read (before the cast to f32) are returned as a Nat. -/
def deserializeF32Bits (s : DeState) : Except Error (Nat × DeState) := do
  let s ← possibleVariant s
  let (bs, s) ← readAlignSigValue s 8 100 4
  .ok (leNat bs, s)

/-- src/de.rs deserialize_f64: signature byte 100, alignment 8; the 64 bits
read are returned as a Nat. -/
def deserializeF64Bits (s : DeState) : Except Error (Nat × DeState) := do
  let s ← possibleVariant s
  let (bs, s) ← readAlignSigValue s 8 100 8
  .ok (leNat bs, s)

/-- src/de/internal.rs deserialize_bytes_basic: u32 size under signature
byte 115 (byte s) at alignment 4, then size + 1 bytes of which the first
size are returned; the trailing byte is consumed without inspection. -/
def deserializeBytesBasic (s : DeState) : Except Error (List Nat × DeState) := do
  let (szB, s) ← readAlignSigValue s 4 115 4
  let size := leNat szB
  let (res, s) ← readBytes s (size + 1)
  .ok (res.take size, s)

/-- Continuation byte test for UTF-8 validation. -/
def utf8Cont (b : Nat) : Bool := decide (128 ≤ b ∧ b ≤ 191)

/-- Validity per std str from_utf8 (strict UTF-8: no overlong forms, no
surrogates, maximum 1114111), modelling the external standard library call
of deserialize_str_basic. -/
def isValidUtf8 : List Nat → Bool
  | [] => true
  | b :: rest =>
    if b < 128 then isValidUtf8 rest
    else if b < 194 then false
    else if b < 224 then
      match rest with
      | b1 :: r => utf8Cont b1 && isValidUtf8 r
      | [] => false
    else if b < 240 then
      match rest with
      | b1 :: b2 :: r =>
        (if b = 224 then decide (160 ≤ b1 ∧ b1 ≤ 191)
         else if b = 237 then decide (128 ≤ b1 ∧ b1 ≤ 159)
         else utf8Cont b1) && utf8Cont b2 && isValidUtf8 r
      | _ => false
    else if b < 245 then
      match rest with
      | b1 :: b2 :: b3 :: r =>
        (if b = 240 then decide (144 ≤ b1 ∧ b1 ≤ 191)
         else if b = 244 then decide (128 ≤ b1 ∧ b1 ≤ 143)
         else utf8Cont b1) && utf8Cont b2 && utf8Cont b3 && isValidUtf8 r
      | _ => false
    else false

/-- src/de/internal.rs deserialize_str_basic: the bytes of
deserialize_bytes_basic checked for UTF-8 validity; invalid bytes are a
StringConversion error. The string is returned as its byte list. -/
def deserializeStrBasic (s : DeState) : Except Error (List Nat × DeState) := do
  let (bs, s) ← deserializeBytesBasic s
  if isValidUtf8 bs then .ok (bs, s) else .error .StringConversion

/-- src/de/internal.rs DataBuffer::complete on a final cursor position. -/
def dataBufferComplete (dataLen dataIx : Nat) : Except Error Unit :=
  let leftover := dataLen - dataIx
  if leftover ≠ 0 then .error (.LeftoverData leftover) else .ok ()

/-- src/de.rs from_message: run a root decode returning the value and the
final data cursor, then require completion of the data buffer. -/
def fromMessageWith {α : Type} (f : Message → Except Error (α × Nat))
    (m : Message) : Except Error α := do
  let (t, ix) ← f m
  let _ ← dataBufferComplete m.data.length ix
  .ok t

/-- Root decode of a bool value from a message, as from_message does for
the bool visitor. -/
def decodeBoolRoot (m : Message) : Except Error (Bool × Nat) := do
  let (b, s) ← deserializeBool ⟨m.data, 0, m.signature, 0⟩
  .ok (b, s.dataIx)

/-- from_message for a bool. -/
def fromMessageBool (m : Message) : Except Error Bool :=
  fromMessageWith decodeBoolRoot m

/-- The decode of a two-tuple of u8 and char, composed exactly as the serde
driver does: deserialize_tuple opens the struct (possible_variant, expect
40, align 8), then for each element the struct access probes for 41, builds
a subsidiary decoder over one grabbed type, and runs the element decode.
Returns both values and the final data cursor. -/
def decodePairU8Char (m : Message) : Except Error ((Nat × Nat) × Nat) := do
  let s ← possibleVariant ⟨m.data, 0, m.signature, 0⟩
  let s ← expectSignatureByte s 40
  let s ← alignReader s 8
  let (p1, s) := probeSignatureBytes s [41]
  if p1 then .error (.Deserializing "invalid length") else do
  let (sig1, s) ← grabSingleSig s
  let (b, c1) ← deserializeU8 ⟨s.data, s.dataIx, sig1, 0⟩
  let s := { s with dataIx := c1.dataIx }
  let (p2, s) := probeSignatureBytes s [41]
  if p2 then .error (.Deserializing "invalid length") else do
  let (sig2, s) ← grabSingleSig s
  let (c, c2) ← deserializeChar ⟨s.data, s.dataIx, sig2, 0⟩
  .ok ((b, c), c2.dataIx)

instance exceptDecEq {ε α : Type} [DecidableEq ε] [DecidableEq α] :
    DecidableEq (Except ε α) := fun a b =>
  match a, b with
  | .ok x, .ok y =>
    if h : x = y then isTrue (by rw [h]) else isFalse (fun hc => h (Except.ok.inj hc))
  | .error e, .error f =>
    if h : e = f then isTrue (by rw [h]) else isFalse (fun hc => h (Except.error.inj hc))
  | .ok _, .error _ => isFalse (fun hc => Except.noConfusion hc)
  | .error _, .ok _ => isFalse (fun hc => Except.noConfusion hc)

/-! Helper lemmas. -/

theorem ebind_ok {α β : Type} (x : α) (f : α → Except Error β) :
    Bind.bind (Except.ok x) f = f x := rfl

theorem u32le_length (v : Nat) : (u32le v).length = 4 := rfl

theorem leNat_u32le (v : Nat) (h : v < 2 ^ 32) : leNat (u32le v) = v := by
  simp only [u32le, leNat, List.foldr]
  omega

theorem alignNat_zero_four : alignNat 0 4 = 0 := by decide

theorem alignNat_two_pow (ix k : Nat) (hk : k ≤ 63) (hix : ix < USZ) :
    alignNat ix (2 ^ k) = (ix + (2 ^ k - ix % 2 ^ k) % 2 ^ k) % USZ := by
  have htpos : 0 < 2 ^ k := Nat.pos_pow_of_pos k (by norm_num)
  have htle : 2 ^ k ≤ 2 ^ 63 := Nat.pow_le_pow_right (by norm_num) hk
  have htlt : 2 ^ k < USZ := by
    have h63 : (2 : Nat) ^ 63 < 2 ^ 64 := by norm_num
    simp only [USZ]; omega
  have hUpos : 0 < USZ := by norm_num [USZ]
  unfold alignNat
  have hmask : (2 ^ k + (USZ - 1)) % USZ = 2 ^ k - 1 := by
    have h1 : 2 ^ k + (USZ - 1) = USZ + (2 ^ k - 1) := by omega
    rw [h1, Nat.add_mod_left, Nat.mod_eq_of_lt (by omega)]
  rw [hmask, Nat.mod_eq_of_lt hix, Nat.and_pow_two_sub_one_eq_mod]
  suffices h : (USZ - ix) % USZ % 2 ^ k = (2 ^ k - ix % 2 ^ k) % 2 ^ k by rw [h]
  rcases Nat.eq_zero_or_pos ix with h0 | hpos
  · subst h0
    simp
  · rw [Nat.mod_eq_of_lt (show USZ - ix < USZ by omega)]
    have hdvd : 2 ^ k ∣ USZ := by
      simp only [USZ]; exact pow_dvd_pow 2 (by omega)
    obtain ⟨M, hM⟩ := hdvd
    have hqr : 2 ^ k * (ix / 2 ^ k) + ix % 2 ^ k = ix := Nat.div_add_mod ix (2 ^ k)
    set q := ix / 2 ^ k with hq
    set r := ix % 2 ^ k with hr
    have hrlt : r < 2 ^ k := Nat.mod_lt _ htpos
    rcases Nat.eq_zero_or_pos r with hr0 | hrpos
    · have hqM : q ≤ M := by
        by_contra hcon
        push_neg at hcon
        have hlt : 2 ^ k * M < 2 ^ k * q := Nat.mul_lt_mul_of_le_of_lt (le_refl _) hcon htpos
        omega
      have hsub : USZ - ix = 2 ^ k * (M - q) := by
        rw [hM, Nat.mul_sub]
        omega
      rw [hsub, hr0, Nat.mul_mod_right]
      simp
    · have hqM : q < M := by
        by_contra hcon
        push_neg at hcon
        have hle2 : 2 ^ k * M ≤ 2 ^ k * q := Nat.mul_le_mul_left _ hcon
        omega
      obtain ⟨u, hu⟩ : ∃ u, M = q + u + 1 := ⟨M - q - 1, by omega⟩
      have hUSZ2 : USZ = 2 ^ k * q + 2 ^ k * u + 2 ^ k := by
        rw [hM, hu]; ring
      have hsub : USZ - ix = 2 ^ k * u + (2 ^ k - r) := by omega
      rw [hsub, Nat.mul_add_mod]

theorem alignNat_eq_of_no_overflow (ix k : Nat) (hk : k ≤ 63) (hix : ix < USZ)
    (hov : ix + (2 ^ k - ix % 2 ^ k) % 2 ^ k < USZ) :
    alignNat ix (2 ^ k) = ix + (2 ^ k - ix % 2 ^ k) % 2 ^ k := by
  rw [alignNat_two_pow ix k hk hix, Nat.mod_eq_of_lt hov]

/-- Evaluation of deserialize_bool on a four byte buffer and the plain bool
signature. -/
theorem deserializeBool_four (a b c d : Nat) :
    deserializeBool ⟨[a, b, c, d], 0, [98], 0⟩ =
      if leNat [a, b, c, d] > 1 then .error (.InvalidBoolValue (leNat [a, b, c, d]))
      else .ok (leNat [a, b, c, d] == 1, ⟨[a, b, c, d], 4, [98], 1⟩) := by
  have h3 : alignReader (⟨[a, b, c, d], 0, [98], 1⟩ : DeState) 4 =
      .ok ⟨[a, b, c, d], 0, [98], 1⟩ := by
    simp [alignReader, validateIx, alignNat_zero_four]
  have h2 : expectSignatureByte (⟨[a, b, c, d], 0, [98], 0⟩ : DeState) 98 =
      .ok ⟨[a, b, c, d], 0, [98], 1⟩ := rfl
  have h4 : readBytes (⟨[a, b, c, d], 0, [98], 1⟩ : DeState) 4 =
      .ok ([a, b, c, d], ⟨[a, b, c, d], 4, [98], 1⟩) := rfl
  have h1 : possibleVariant (⟨[a, b, c, d], 0, [98], 0⟩ : DeState) =
      .ok ⟨[a, b, c, d], 0, [98], 0⟩ := rfl
  unfold deserializeBool readAlignSigValue
  rw [h1, ebind_ok, h2, ebind_ok, h3, ebind_ok, h4, ebind_ok]

/-! Claim theorems. -/

/-- C8 counterexample: at the largest usize index, align wraps to 0, which is
below the index, so align is not the smallest n at least ix with n mod a = 0
for every index ix and power of two a. -/
theorem align_wraps_at_usize_max :
    alignNat (2 ^ 64 - 1) 2 = 0 ∧ ¬ (2 ^ 64 - 1 ≤ alignNat (2 ^ 64 - 1) 2) :=
  ⟨by decide, by decide⟩

/-- C8 amended: for every usize index ix and power of two a = 2 to the k with
k at most 63, whenever the aligned index does not overflow usize, align
returns the smallest n at least ix with n mod a = 0; align is then
idempotent and exceeds ix by less than a. -/
theorem align_power_of_two_least (ix k : Nat) (hk : k ≤ 63) (hix : ix < USZ)
    (hov : ix + (2 ^ k - ix % 2 ^ k) % 2 ^ k < USZ) :
    ix ≤ alignNat ix (2 ^ k) ∧
    alignNat ix (2 ^ k) % 2 ^ k = 0 ∧
    (∀ n, ix ≤ n → n % 2 ^ k = 0 → alignNat ix (2 ^ k) ≤ n) ∧
    alignNat (alignNat ix (2 ^ k)) (2 ^ k) = alignNat ix (2 ^ k) ∧
    alignNat ix (2 ^ k) - ix < 2 ^ k := by
  have htpos : 0 < 2 ^ k := Nat.pos_pow_of_pos k (by norm_num)
  have heq := alignNat_eq_of_no_overflow ix k hk hix hov
  have hqr : 2 ^ k * (ix / 2 ^ k) + ix % 2 ^ k = ix := Nat.div_add_mod ix (2 ^ k)
  set q := ix / 2 ^ k with hqdef
  set r := ix % 2 ^ k with hrdef
  have hrlt : r < 2 ^ k := Nat.mod_lt _ htpos
  have hpadlt : (2 ^ k - r) % 2 ^ k < 2 ^ k := Nat.mod_lt _ htpos
  have hmod : alignNat ix (2 ^ k) % 2 ^ k = 0 := by
    rcases Nat.eq_zero_or_pos r with hr0 | hrpos
    · rw [heq, hr0]
      simp only [Nat.sub_zero, Nat.mod_self, Nat.add_zero]
      omega
    · have hpad : (2 ^ k - r) % 2 ^ k = 2 ^ k - r := Nat.mod_eq_of_lt (by omega)
      have hA : alignNat ix (2 ^ k) = 2 ^ k * (q + 1) := by
        rw [heq, hpad]
        have hd : 2 ^ k * (q + 1) = 2 ^ k * q + 2 ^ k := by ring
        omega
      rw [hA, Nat.mul_mod_right]
  refine ⟨by omega, hmod, ?_, ?_, by omega⟩
  · intro n hn hnmod
    have hndvd : 2 ^ k * (n / 2 ^ k) = n := by
      have hd := Nat.div_add_mod n (2 ^ k)
      omega
    set m := n / 2 ^ k with hmdef
    rcases Nat.eq_zero_or_pos r with hr0 | hrpos
    · rw [heq, hr0]
      simp only [Nat.sub_zero, Nat.mod_self, Nat.add_zero]
      omega
    · have hpad : (2 ^ k - r) % 2 ^ k = 2 ^ k - r := Nat.mod_eq_of_lt (by omega)
      have hA : alignNat ix (2 ^ k) = 2 ^ k * (q + 1) := by
        rw [heq, hpad]
        have hd : 2 ^ k * (q + 1) = 2 ^ k * q + 2 ^ k := by ring
        omega
      have hqm : q < m := by
        by_contra hcon
        push_neg at hcon
        have hle2 : 2 ^ k * m ≤ 2 ^ k * q := Nat.mul_le_mul_left _ hcon
        omega
      have hle3 : 2 ^ k * (q + 1) ≤ 2 ^ k * m := Nat.mul_le_mul_left _ (by omega)
      omega
  · have hAlt : alignNat ix (2 ^ k) < USZ := by omega
    have hovA : alignNat ix (2 ^ k) + (2 ^ k - alignNat ix (2 ^ k) % 2 ^ k) % 2 ^ k
        < USZ := by
      rw [hmod]
      simp only [Nat.sub_zero, Nat.mod_self, Nat.add_zero]
      omega
    rw [alignNat_eq_of_no_overflow _ k hk hAlt hovA, hmod]
    simp only [Nat.sub_zero, Nat.mod_self, Nat.add_zero]

/-- C8 witness. -/
theorem align_power_of_two_least_witness :
    alignNat 23 (2 ^ 2) = 24 ∧ 23 ≤ alignNat 23 (2 ^ 2) :=
  ⟨by decide, (align_power_of_two_least 23 2 (by norm_num) (by decide) (by decide)).1⟩

/-- C6: decoding a boolean (signature byte 98, the byte b) from a u32 yields
false for 0, true for 1, and InvalidBoolValue v for every other value v. -/
theorem bool_decode_values (v : Nat) (h : v < 2 ^ 32) :
    fromMessageBool ⟨u32le v, [98]⟩ =
      if v = 0 then .ok false
      else if v = 1 then .ok true
      else .error (.InvalidBoolValue v) := by
  have h4 : deserializeBool ⟨u32le v, 0, [98], 0⟩ =
      if v > 1 then .error (.InvalidBoolValue v)
      else .ok (v == 1, ⟨u32le v, 4, [98], 1⟩) := by
    have hb := deserializeBool_four (v % 256) (v / 2 ^ 8 % 256) (v / 2 ^ 16 % 256)
      (v / 2 ^ 24 % 256)
    rw [show ([v % 256, v / 2 ^ 8 % 256, v / 2 ^ 16 % 256, v / 2 ^ 24 % 256] : List Nat)
        = u32le v from rfl, leNat_u32le v h] at hb
    exact hb
  unfold fromMessageBool fromMessageWith decodeBoolRoot
  rw [h4]
  rcases Nat.lt_or_ge 1 v with h1 | h1
  · rw [if_pos h1]
    have hne0 : ¬ v = 0 := by omega
    have hne1 : ¬ v = 1 := by omega
    rw [if_neg hne0, if_neg hne1]
    rfl
  · rw [if_neg (by omega : ¬ v > 1)]
    rcases Nat.eq_zero_or_pos v with h0 | hp
    · subst h0
      rfl
    · have hv1 : v = 1 := by omega
      subst hv1
      rfl

/-- C6 witness: the encoded u32 value 2 decodes to InvalidBoolValue 2. -/
theorem bool_decode_values_witness :
    fromMessageBool ⟨u32le 2, [98]⟩ = .error (.InvalidBoolValue 2) := by
  simpa using bool_decode_values 2 (by norm_num)

/-- C1: round trip fails on an empty dict. Serializing a map or Dict-style
aggregate with zero emitted entries produces signature a then left brace s v
right brace with data 0 0 0 0, and decoding that message fails with
IndexOutOfBounds 8: the decoder aligns the cursor to the dict entry
alignment 8 past the 4 byte buffer, because the encoder emitted no padding
after the length field of the empty array. -/
theorem empty_dict_round_trip_fails :
    serializeEmptyDict = some ⟨[0, 0, 0, 0], [97, 123, 115, 118, 125]⟩ ∧
    arrayDeserializerNew ⟨[0, 0, 0, 0], 0, [97, 123, 115, 118, 125], 0⟩ =
      .error (.IndexOutOfBounds 8) :=
  ⟨by decide, by decide⟩

/-- C2: with signature 40 121 117 41 (a struct of u8 and u32) and the u32
value 65 encoded at its aligned offset 4, the decoder asked for u8 then char
aligns the char read to 2 instead of 4, reads the u32 4259840 from offset 2
and fails with CharTryFromError, although the u32 at the claimed offset 4 is
65, a valid scalar; and the f32 path under signature byte 100 aligns to 4
instead of 8, reading the eight bytes at offset 4 (bits 0) instead of the
value at offset 8. -/
theorem char_f32_misaligned_reads :
    decodePairU8Char ⟨[1, 0, 0, 0, 65, 0, 0, 0], [40, 121, 117, 41]⟩ =
      .error .CharTryFromError ∧
    leNat (([1, 0, 0, 0, 65, 0, 0, 0].drop 4).take 4) = 65 ∧
    deserializeF32Bits ⟨[1, 0, 0, 0, 0, 0, 0, 0, 0, 0, 0, 0, 0, 0, 240, 63], 1, [100], 0⟩ =
      .ok (0, ⟨[1, 0, 0, 0, 0, 0, 0, 0, 0, 0, 0, 0, 0, 0, 240, 63], 12, [100], 1⟩) ∧
    alignNat 1 8 = 8 ∧
    leNat (([1, 0, 0, 0, 0, 0, 0, 0, 0, 0, 0, 0, 0, 0, 240, 63].drop 8).take 8) =
      4607182418800017408 :=
  ⟨by decide, by decide, by decide, by decide, by decide⟩

/-- C4: serializing an empty array with declared element signature 100
(byte d, natural alignment 8) emits the u32 length 0 and nothing else: the
whole output is the 4 length bytes, with no padding up to the element
alignment 8 between the length field and the empty body; decoding the
resulting message fails with IndexOutOfBounds 8 because the decoder does
align to the element alignment. -/
theorem empty_array_element_padding_missing :
    serializeEmptyArrayD = some ⟨[0, 0, 0, 0], [97, 100]⟩ ∧
    sigAlignment 100 = .ok 8 ∧
    alignNat 4 8 = 8 ∧
    arrayDeserializerNew ⟨[0, 0, 0, 0], 0, [97, 100], 0⟩ =
      .error (.IndexOutOfBounds 8) :=
  ⟨by decide, by decide, by decide, by decide⟩

/-- C5: the Signature primitive encoder always panics: its first
copy_from_slice copies the four little-endian bytes of the u32 length into
the one byte slice out[0..1], whose lengths differ. -/
theorem signature_serialize_always_panics (sigBytes out : List Nat) :
    signatureSerializeRs sigBytes out = none := by
  unfold signatureSerializeRs
  have h1 : writeRange out 0 1 (u32le sigBytes.length) = none := by
    unfold writeRange sliceRange copyFromSlice
    rcases out with _ | ⟨b, rest⟩
    · simp
    · have hlen : (1 : Nat) ≤ (b :: rest).length := by simp
      rw [if_pos ⟨by omega, hlen⟩]
      simp [u32le]
  rw [h1]
  rfl

theorem ebind_err {α β : Type} (e : Error) (f : α → Except Error β) :
    Bind.bind (Except.error e : Except Error α) f = .error e := rfl

/-- Evaluation of the size read of deserialize_bytes_basic on a buffer that
starts with a u32 length. -/
theorem readAlignSig_s_prefix (L : Nat) (X : List Nat) :
    readAlignSigValue ⟨u32le L ++ X, 0, [115], 0⟩ 4 115 4 =
      .ok (u32le L, ⟨u32le L ++ X, 4, [115], 1⟩) := by
  have hlen : (u32le L ++ X).length = 4 + X.length := by
    simp [u32le]
    omega
  have h2 : expectSignatureByte (⟨u32le L ++ X, 0, [115], 0⟩ : DeState) 115 =
      .ok ⟨u32le L ++ X, 0, [115], 1⟩ := rfl
  have h3 : alignReader (⟨u32le L ++ X, 0, [115], 1⟩ : DeState) 4 =
      .ok ⟨u32le L ++ X, 0, [115], 1⟩ := by
    simp only [alignReader, validateIx]
    rw [alignNat_zero_four]
    simp
  have h4 : readBytes (⟨u32le L ++ X, 0, [115], 1⟩ : DeState) 4 =
      .ok (u32le L, ⟨u32le L ++ X, 4, [115], 1⟩) := by
    simp only [readBytes, validateIx]
    rw [if_neg (by simp only [hlen]; omega)]
    rw [ebind_ok]
    rw [List.drop_zero, show (4 : Nat) = (u32le L).length from rfl, List.take_left]
    simp
  unfold readAlignSigValue
  rw [h2, ebind_ok, h3, ebind_ok, h4]

/-- Evaluation of deserialize_bytes_basic when the buffer holds the length,
the payload and one terminator byte. -/
theorem deserializeBytesBasic_eval (L : Nat) (payload : List Nat) (t : Nat)
    (hL : payload.length = L) (hsz : L < 2 ^ 32) :
    deserializeBytesBasic ⟨u32le L ++ (payload ++ [t]), 0, [115], 0⟩ =
      .ok (payload, ⟨u32le L ++ (payload ++ [t]), 4 + (L + 1), [115], 1⟩) := by
  have h1 := readAlignSig_s_prefix L (payload ++ [t])
  have hlen : (u32le L ++ (payload ++ [t])).length = 4 + (L + 1) := by
    simp [u32le, hL]
    omega
  have h5 : readBytes (⟨u32le L ++ (payload ++ [t]), 4, [115], 1⟩ : DeState) (L + 1) =
      .ok (payload ++ [t], ⟨u32le L ++ (payload ++ [t]), 4 + (L + 1), [115], 1⟩) := by
    simp only [readBytes, validateIx]
    rw [if_neg (by simp only [hlen]; omega)]
    rw [ebind_ok]
    rw [show (4 : Nat) = (u32le L).length from rfl, List.drop_left]
    rw [List.take_of_length_le (by simp [hL])]
  unfold deserializeBytesBasic
  rw [h1, ebind_ok]
  simp only [leNat_u32le L hsz]
  rw [h5, ebind_ok]
  rw [← hL, List.take_left]

/-- Evaluation of deserialize_bytes_basic when the declared length plus the
terminator exceeds the remaining buffer. -/
theorem deserializeBytesBasic_overrun (L : Nat) (data2 : List Nat)
    (hshort : data2.length < L + 1) (hsz : L < 2 ^ 32) :
    deserializeBytesBasic ⟨u32le L ++ data2, 0, [115], 0⟩ =
      .error (.IndexOutOfBounds (4 + (L + 1))) := by
  have h1 := readAlignSig_s_prefix L data2
  have hlen : (u32le L ++ data2).length = 4 + data2.length := by
    simp [u32le]
    omega
  have h5 : readBytes (⟨u32le L ++ data2, 4, [115], 1⟩ : DeState) (L + 1) =
      .error (.IndexOutOfBounds (4 + (L + 1))) := by
    simp only [readBytes, validateIx]
    rw [if_pos (by simp only [hlen]; omega)]
    rfl
  unfold deserializeBytesBasic
  rw [h1, ebind_ok]
  simp only [leNat_u32le L hsz]
  rw [h5]
  rfl

/-- C3 counterexample: decoding a string whose terminator byte is 7, not 0,
succeeds and returns the payload; the byte after the payload is consumed but
never checked against 0. -/
theorem string_decode_ignores_terminator :
    deserializeStrBasic ⟨[1, 0, 0, 0, 65, 7], 0, [115], 0⟩ =
      .ok ([65], ⟨[1, 0, 0, 0, 65, 7], 6, [115], 1⟩) ∧
    (7 : Nat) ≠ 0 := by
  constructor
  · have h := deserializeBytesBasic_eval 1 [65] 7 rfl (by norm_num)
    unfold deserializeStrBasic
    rw [show ([1, 0, 0, 0, 65, 7] : List Nat) = u32le 1 ++ ([65] ++ [7]) from rfl]
    rw [h, ebind_ok]
    rfl
  · decide

/-- C3 amended: decoding a string fails with IndexOutOfBounds when the
declared length plus its terminator exceeds the remaining buffer, and with
StringConversion when the payload is not valid UTF-8; otherwise it returns
the payload, for any value of the terminator byte, which is skipped without
inspection. -/
theorem string_decode_characterized (L : Nat) (payload : List Nat) (t : Nat)
    (hL : payload.length = L) (hsz : L < 2 ^ 32) :
    (deserializeStrBasic ⟨u32le L ++ (payload ++ [t]), 0, [115], 0⟩ =
      if isValidUtf8 payload then
        .ok (payload, ⟨u32le L ++ (payload ++ [t]), 4 + (L + 1), [115], 1⟩)
      else .error .StringConversion) ∧
    (∀ data2 : List Nat, data2.length < L + 1 →
      deserializeStrBasic ⟨u32le L ++ data2, 0, [115], 0⟩ =
        .error (.IndexOutOfBounds (4 + (L + 1)))) := by
  constructor
  · unfold deserializeStrBasic
    rw [deserializeBytesBasic_eval L payload t hL hsz, ebind_ok]
  · intro data2 hshort
    unfold deserializeStrBasic
    rw [deserializeBytesBasic_overrun L data2 hshort hsz]
    rfl

/-- C3 witness: a valid two byte string decodes to its payload, and a
declared length of 5 with only one remaining byte is IndexOutOfBounds. -/
theorem string_decode_characterized_witness :
    deserializeStrBasic ⟨u32le 2 ++ ([72, 105] ++ [0]), 0, [115], 0⟩ =
      .ok ([72, 105], ⟨u32le 2 ++ ([72, 105] ++ [0]), 4 + (2 + 1), [115], 1⟩) ∧
    deserializeStrBasic ⟨u32le 5 ++ [72], 0, [115], 0⟩ =
      .error (.IndexOutOfBounds (4 + (5 + 1))) := by
  constructor
  · have h := (string_decode_characterized 2 [72, 105] 0 rfl (by norm_num)).1
    simpa using h
  · exact (string_decode_characterized 5 [72, 101, 108, 108, 111] 0 rfl (by norm_num)).2
      [72] (by norm_num)

/-- C7: from_message succeeds exactly when the root decode consumed the data
buffer entirely, and fails with LeftoverData n exactly when n greater than 0
bytes remain after the root decode. -/
theorem from_message_exact_consumption {α : Type} (f : Message → Except Error (α × Nat))
    (m : Message) (t : α) (ix : Nat) (hf : f m = .ok (t, ix))
    (hle : ix ≤ m.data.length) :
    (fromMessageWith f m = .ok t ↔ ix = m.data.length) ∧
    (fromMessageWith f m = .error (.LeftoverData (m.data.length - ix)) ↔
      ix < m.data.length) := by
  have hmain : fromMessageWith f m =
      if m.data.length - ix ≠ 0 then .error (.LeftoverData (m.data.length - ix))
      else .ok t := by
    unfold fromMessageWith dataBufferComplete
    rw [hf]
    by_cases hz : m.data.length - ix = 0
    · simp [hz, ebind_ok, ebind_err]
    · simp [hz, ebind_ok, ebind_err]
  rw [hmain]
  by_cases hz : m.data.length - ix = 0
  · constructor
    · simp [hz]
      omega
    · simp [hz]
      omega
  · constructor
    · simp [hz]
      omega
    · simp [hz]
      omega

/-- C7 witness: a bool message with one trailing byte decodes but
from_message reports LeftoverData 1. -/
theorem from_message_exact_consumption_witness :
    fromMessageWith decodeBoolRoot ⟨[1, 0, 0, 0, 9], [98]⟩ =
      .error (.LeftoverData 1) := by
  have h := (from_message_exact_consumption decodeBoolRoot ⟨[1, 0, 0, 0, 9], [98]⟩ true 4
    (by decide) (by decide)).2
  exact h.mpr (by decide)

/-- C9: finishing an array item whose produced signature differs from the
declared element signature fails with MismatchSignature carrying the
declared signature then the produced one; an item whose produced signature
matches succeeds, its bytes becoming the array contents. -/
theorem array_item_signature_check (p : PendingArraySer) (item : PendingMessage) :
    (item.signature = p.itemSig →
      finishItemArray p item = .ok ⟨p.prev, { item with signature := [] }, p.itemSig⟩) ∧
    (item.signature ≠ p.itemSig →
      finishItemArray p item = .error (.MismatchSignature p.itemSig item.signature)) := by
  unfold finishItemArray
  constructor
  · intro h
    rw [if_neg (by simp [h])]
  · intro h
    rw [if_pos (fun hc => h hc.symm)]

/-- C9 witness: declared element signature 105 (byte i) against produced
117 (byte u) is a mismatch carrying both; a produced 105 succeeds. -/
theorem array_item_signature_check_witness :
    finishItemArray ⟨PendingMessage.new, [105]⟩ ⟨MessageBuilder.new, [117]⟩ =
      .error (.MismatchSignature [105] [117]) ∧
    finishItemArray ⟨PendingMessage.new, [105]⟩ ⟨MessageBuilder.new, [105]⟩ =
      .ok ⟨PendingMessage.new, ⟨MessageBuilder.new, []⟩, [105]⟩ := by
  constructor
  · exact (array_item_signature_check ⟨PendingMessage.new, [105]⟩
      ⟨MessageBuilder.new, [117]⟩).2 (by decide)
  · exact (array_item_signature_check ⟨PendingMessage.new, [105]⟩
      ⟨MessageBuilder.new, [105]⟩).1 (by decide)

/-- C10: serialize_none and serialize_unit_struct are the encoding of unit;
the unit encoding at top level is the empty struct message, signature 40 41
with no data; inside a Dict-style aggregate an item whose value signature is
40 41 is elided, leaving the dict serializer unchanged; inside a
StronglyTyped struct the unit encoding is retained, appending 40 41 to the
signature while only the alignment intent 8 touches the builder. -/
theorem none_unit_encode_empty_struct :
    (∀ pm, serializeNone pm = serializeUnit pm ∧ serializeUnitStruct pm = serializeUnit pm) ∧
    completeDone (serializeUnit PendingMessage.new) = some ⟨[], [40, 41]⟩ ∧
    (∀ s name value, value.signature = [40, 41] →
      finishOptionalItem s name value = .ok s) ∧
    (∀ pm, serializeUnit pm = ⟨pm.builder.align 8, pm.signature ++ [40, 41]⟩) := by
  refine ⟨fun pm => ⟨rfl, rfl⟩, by decide, ?_, ?_⟩
  · intro s name value h
    unfold finishOptionalItem
    rw [if_pos h]
    rfl
  · intro pm
    simp [serializeUnit, startStruct, finishStruct]

/-- C10 witness: a None item inside a dict under the default policy is
dropped, leaving the serializer state unchanged. -/
theorem none_unit_encode_empty_struct_witness :
    finishOptionalItem (startDict PendingMessage.new) [97]
      (serializeUnit PendingMessage.new) = .ok (startDict PendingMessage.new) :=
  (none_unit_encode_empty_struct.2.2.1 (startDict PendingMessage.new) [97]
    (serializeUnit PendingMessage.new) rfl)

end SerdeDbus
